import Mathlib

/-
Verification of the incremental dependency-graph build engine of
broccoli-dependency-funnel (src/index.js).

The filesystem is modelled as a finite association list from root-relative
paths to file nodes (metadata plus the list of import specifiers a module
contains).  All paths are root-relative strings: the source joins the input
path onto relative names and strips it back off before use
(`path.join(inputPath, ...)` / `.replace(inputPath, '')`), so the pair of
operations cancels and the root prefix carries no information.

External collaborators (fs-tree-diff, rollup's graph walk, amd-name-resolver)
and the repository's util files that are not part of the given source
(copy-file, exists-stat, filter-directory) are modelled from the spec's
interface descriptions; each such definition says so in its doc comment.
-/

abbrev ModulePath := String

/-- Metadata record of a filesystem entry, as compared by the snapshot diff
engine: kind (file/directory), modification time, size and permission bits. -/
structure Stat where
  isDirectory : Bool
  mtime : Nat
  size : Nat
  mode : Nat
deriving DecidableEq

/-- A filesystem node: its stat metadata and, for a JS module, the ordered
list of import specifiers appearing in its source text. -/
structure FileNode where
  stat : Stat
  imports : List String
deriving DecidableEq

/-- A filesystem: finite association list from root-relative path to node.
Directories appear as their own entries (with `stat.isDirectory = true`). -/
abbrev FS := List (ModulePath × FileNode)

/-- All paths under the root (files and directories). -/
def fsPaths (fs : FS) : List ModulePath := fs.map Prod.fst

/-- The file (non-directory) paths under the root. -/
def filePaths (fs : FS) : List ModulePath :=
  (fs.filter (fun e => !e.2.stat.isDirectory)).map Prod.fst

/-- Association-list lookup by path (mirrors a stat of `root/p`). -/
def fsLookup (fs : FS) (p : ModulePath) : Option FileNode :=
  match fs with
  | [] => none
  | e :: rest => if e.1 = p then some e.2 else fsLookup rest p

/-- `existsSync(path.join(inputPath, p))`. -/
def existsSync (fs : FS) (p : ModulePath) : Bool := (fsLookup fs p).isSome

/-- Modelled from the spec: `existsStat` (src/utils/exists-stat, not under
src/) stats a path, returning null when the target does not exist. -/
def existsStat (fs : FS) (p : ModulePath) : Option Stat := (fsLookup fs p).map FileNode.stat

/-- JS `array.indexOf(x) !== -1` membership test. -/
def memb (p : ModulePath) : List ModulePath → Bool
  | [] => false
  | q :: rest => if q = p then true else memb p rest

/-- JS `fs.readdirSync(inputPath)`: the top-level entry names of the root,
i.e. the paths containing no separator. -/
def readdirTop (fs : FS) : List ModulePath :=
  (fsPaths fs).filter (fun p => !(p.toList.contains '/'))

/-- `child.split('/')` (JS `String.prototype.split` on one-character sep). -/
def splitSlash (s : String) : List String :=
  (s.toList.foldr
    (fun c acc =>
      match acc with
      | cur :: rest => if c = '/' then [] :: (cur :: rest) else (c :: cur) :: rest
      | [] => [[c]])
    [[]]).map String.mk

/-- `parts.join('/')`. -/
def joinSlash : List String → String
  | [] => ""
  | [s] => s
  | s :: rest => s ++ "/" ++ joinSlash rest

/-- JS `.replace(/^\//, '')`: strip one leading slash. -/
def stripLeadingSlash (s : String) : String :=
  match s.toList with
  | '/' :: rest => String.mk rest
  | _ => s

/- ---------------------------------------------------------------------- -/
/- Filesystem snapshot diff engine (fs-tree-diff), modelled from the spec. -/
/- ---------------------------------------------------------------------- -/

/-- An fs-tree-diff entry: a path together with the metadata the diff engine
compares (kind, size, mtime, mode).  Modelled from the spec (snapshot entry). -/
structure Entry where
  relativePath : ModulePath
  isDirectory : Bool
  mtime : Nat
  size : Nat
  mode : Nat
deriving DecidableEq

/-- `Entry.fromStat(relativePath, stat)`. -/
def Entry.fromStat (p : ModulePath) (s : Stat) : Entry :=
  { relativePath := p, isDirectory := s.isDirectory,
    mtime := s.mtime, size := s.size, mode := s.mode }

/-- A snapshot: the list of entries for an ordered list of paths. -/
abbrev FSTree := List Entry

/-- `_getFSTree(paths)` (src/index.js lines 120-134): stat each path under the
input root, silently omitting paths whose target no longer exists, and build
the snapshot from the surviving entries. -/
def getFSTree (fs : FS) (paths : List ModulePath) : FSTree :=
  paths.filterMap (fun p => (existsStat fs p).map (Entry.fromStat p))

/-- The kinds of patch operations fs-tree-diff produces.  Modelled from the
spec (create/update/remove for files, mkdir/rmdir for directories). -/
inductive OpKind where
  | create
  | change
  | unlink
  | mkdir
  | rmdir
deriving DecidableEq

/-- A patch: ordered operation list, each operation carrying its entry. -/
abbrev PatchItem := OpKind × Entry

def findByPath (t : FSTree) (p : ModulePath) : Option Entry :=
  t.find? (fun e => decide (e.relativePath = p))

/-- Modelled from the spec: `oldTree.calculatePatch(newTree)` of fs-tree-diff
(the Filesystem Snapshot Diff Engine, spec section 4.1): a pure function of the
two snapshots; entries are equal (no-op) exactly when kind, size, mode and
mtime all match; paths present only in the old snapshot yield remove
operations, paths only in the new one yield create operations, and changed
entries yield update operations. -/
def calculatePatch (old new : FSTree) : List PatchItem :=
  let removals := (old.filter (fun e => (findByPath new e.relativePath).isNone)).map
    (fun e => (if e.isDirectory then OpKind.rmdir else OpKind.unlink, e))
  let additions := (new.filter (fun e => (findByPath old e.relativePath).isNone)).map
    (fun e => (if e.isDirectory then OpKind.mkdir else OpKind.create, e))
  let updates := (new.filter (fun e =>
      match findByPath old e.relativePath with
      | some o => decide (o ≠ e)
      | none => false)).map (fun e => (OpKind.change, e))
  removals.reverse ++ additions ++ updates

/-- Replace-or-append an entry of the output directory. -/
def upsert (out : FS) (p : ModulePath) (n : FileNode) : FS :=
  match out with
  | [] => [(p, n)]
  | e :: rest => if e.1 = p then (p, n) :: rest else e :: upsert rest p n

/-- Remove a path from the output directory. -/
def removePath (out : FS) (p : ModulePath) : FS :=
  out.filter (fun e => decide (e.1 ≠ p))

/-- Modelled from the spec: `copyFile` (src/utils/copy-file, not under src/),
the low-level copy utility: copies one inode from the input root to the same
relative path under the output root.  A file is copied with its metadata; a
directory is created (not recursed into — forced by the repository's own
expected outputs in spec section 8, where copying the complement list `engine.js,
utils, utils/herp.js` must not drag along dependency-graph files under
`utils`).  In this model both cases transfer the node at that single path. -/
def copyFile (fs : FS) (out : FS) (p : ModulePath) : FS :=
  match fsLookup fs p with
  | some n => upsert out p n
  | none => out

/-- `_copy(inodes)` (src/index.js lines 82-90): copy each listed inode forward
from the input root to the output root. -/
def copyList (fs : FS) (out : FS) (inodes : List ModulePath) : FS :=
  inodes.foldl (copyFile fs) out

/-- Modelled from the spec: one step of `FSTree.applyPatch(input, output,
patch)`: remove operations delete the path from the output; create/update
operations copy the path forward from the input. -/
def applyOp (fs : FS) (out : FS) (op : PatchItem) : FS :=
  match op.1 with
  | OpKind.unlink => removePath out op.2.relativePath
  | OpKind.rmdir => removePath out op.2.relativePath
  | OpKind.create => copyFile fs out op.2.relativePath
  | OpKind.mkdir => copyFile fs out op.2.relativePath
  | OpKind.change => copyFile fs out op.2.relativePath

/-- Modelled from the spec: `FSTree.applyPatch(input, output, patch)` applies
the operations in sequence to the output directory. -/
def applyPatch (fs : FS) (out : FS) (patch : List PatchItem) : FS :=
  patch.foldl (applyOp fs) out

/-- Modelled from the spec: `filterDirectory(root, '', pred)`
(src/utils/filter-directory, not under src/), the Directory Filter of spec
section 4.2: enumerates every file and directory path under the root for which
the predicate holds. -/
def filterDirectory (fs : FS) (pred : ModulePath → Bool) : List ModulePath :=
  (fsPaths fs).filter pred

/- ---------------------------------------------------------------------- -/
/- Module graph resolver: the resolveId callback and the rollup walk.      -/
/- ---------------------------------------------------------------------- -/

/-- Process the segments of a relative specifier against the importer's
directory segments: `..` pops, `.` is skipped, anything else is appended. -/
def resolveParts (base : List String) : List String → List String
  | [] => base
  | ".." :: rest => resolveParts base.dropLast rest
  | "." :: rest => resolveParts base rest
  | s :: rest => resolveParts (base ++ [s]) rest

/-- Modelled from the spec: `moduleResolve(child, name)` of amd-name-resolver
(spec section 9: AMD name resolution strips relative segments against the
importing module's own path, collapsing to root-relative form): a specifier
not starting with `.` is returned unchanged; otherwise its segments are
resolved against the importer's directory. -/
def moduleResolve (child importer : String) : String :=
  match child.toList with
  | '.' :: _ => joinSlash (resolveParts (splitSlash importer).dropLast (splitSlash child))
  | _ => child

/-- One import-edge resolution, following the `resolveId` plugin callback of
`_getRollupOptions` (src/index.js lines 175-190) for the non-entry case, with
rollup's handling of the `external` option modelled from the spec (sections
4.3 and 6: specifiers listed in `external` short-circuit to external
immediately, before any resolution).  A resolved name has the input path
stripped (`.replace(inputPath, '')`, a no-op on our root-relative strings)
and one leading slash removed, then `.js` is appended and the file's
existence decides between recording the module and treating the specifier as
external; `some q` means the import resolves to the existing file `q`, which
`resolveId` pushes onto the `modules` array and returns. -/
def resolveImport (fs : FS) (ext : List String) (importee importer : ModulePath) :
    Option ModulePath :=
  if memb importee ext then none
  else if existsSync fs (stripLeadingSlash (moduleResolve importee importer) ++ ".js") then
    some (stripLeadingSlash (moduleResolve importee importer) ++ ".js")
  else none

/-- The import specifiers contained in a module's source text. -/
def moduleImports (fs : FS) (p : ModulePath) : List String :=
  ((fsLookup fs p).map FileNode.imports).getD []

/-- Modelled from the spec: rollup's depth-first module fetch (spec section
4.3), driving the `resolveId` callback.  The stack holds, per module being
walked, its remaining import specifiers.  Every discovered import is resolved
(one `resolveId` invocation per import occurrence, so the accumulator records
one element per resolving edge), while a module already visited is never
re-walked.  Fuel only bounds the recursion; `walkFuel` below always suffices. -/
def walkStep (fs : FS) (ext : List String) :
    Nat → List ModulePath → List ModulePath → List (ModulePath × List String) →
    List ModulePath × List ModulePath
  | 0, visited, acc, _ => (visited, acc)
  | fuel + 1, visited, acc, stack =>
    match stack with
    | [] => (visited, acc)
    | (imp, imps) :: rest =>
      match imps with
      | [] => walkStep fs ext fuel visited acc rest
      | s :: ss =>
        match resolveImport fs ext s imp with
        | none => walkStep fs ext fuel visited acc ((imp, ss) :: rest)
        | some q =>
          if memb q visited then
            walkStep fs ext fuel visited (acc ++ [q]) ((imp, ss) :: rest)
          else
            walkStep fs ext fuel (q :: visited) (acc ++ [q])
              ((q, moduleImports fs q) :: (imp, ss) :: rest)

/-- Fuel bound for the walk: every step either consumes one pending import
(at most one per import occurrence in the tree) or pops a stack frame (at
most one per visited module plus the entry). -/
def walkFuel (fs : FS) : Nat :=
  fs.foldl (fun n e => n + e.2.imports.length) 0 + fs.length + 2

/-- `rollup(rollupOptions)` with the plugin of `_getRollupOptions`
(src/index.js lines 167-194): the entry is resolved by the importer-less
branch of `resolveId`, which records `this.entry` itself (the input path
stripped off) in `modules` and hands rollup the entry's path; the walk then
records one module path per resolving import edge.  Returns the final
`modules` array. -/
def resolveGraph (fs : FS) (ext : List String) (entry : ModulePath) : List ModulePath :=
  (walkStep fs ext (walkFuel fs) [entry] [entry] [(entry, moduleImports fs entry)]).2

/- ---------------------------------------------------------------------- -/
/- The plugin: construction and per-build state.                           -/
/- ---------------------------------------------------------------------- -/

/-- The options hash passed to the constructor.  `include'` and `exclude'`
model the boolean-ish `options.include` / `options.exclude` (absent = none);
`external` models `options.external` (possibly absent). -/
structure Options where
  include' : Option Bool
  exclude' : Option Bool
  entry : ModulePath
  external : Option (List String)
deriving DecidableEq

/-- JS truthiness of a boolean-ish option value (`!!x`, and the operand of
`^` after ToInt32: absent coerces to 0/false). -/
def jsTruthy : Option Bool → Bool
  | none => false
  | some b => b

/-- The constructed plugin configuration: `this.include`, `this.entry`,
`this.external` (src/index.js lines 33-36). -/
structure BroccoliDependencyFunnel where
  include' : Bool
  entry : ModulePath
  external : Option (List String)
deriving DecidableEq

/-- The constructor (src/index.js lines 20-44): throws unless exactly one of
`options.include` and `options.exclude` is truthy (`!(include ^ exclude)`
after JS coercion), then stores `this.include = !!options.include`. -/
def construct (options : Options) : Except String BroccoliDependencyFunnel :=
  if (jsTruthy options.include').xor (jsTruthy options.exclude') then
    Except.ok { include' := jsTruthy options.include',
                entry := options.entry, external := options.external }
  else
    Except.error "Must specify exactly one of `include` or `exclude`."

/-- The cross-build instance state: the four cache fields initialised to
undefined by the constructor (src/index.js lines 40-43) plus the persistent
output directory. -/
structure FunnelState where
  depGraph : Option (List ModulePath)
  depGraphTree : Option FSTree
  nonDepGraph : Option (List ModulePath)
  nonDepGraphTree : Option FSTree
  output : FS
deriving DecidableEq

/-- The state after construction: caches undefined, output directory empty. -/
def initialState : FunnelState :=
  { depGraph := none, depGraphTree := none,
    nonDepGraph := none, nonDepGraphTree := none, output := [] }

/-- Lexicographic comparison of character lists by code unit, the order JS
`Array.prototype.sort`'s default comparator induces on our (ASCII) paths. -/
def strLeChars : List Char → List Char → Bool
  | [], _ => true
  | _ :: _, [] => false
  | a :: as, b :: bs =>
    if a.toNat < b.toNat then true
    else if b.toNat < a.toNat then false
    else strLeChars as bs

/-- Lexicographic `≤` on paths. -/
def strLe (p q : ModulePath) : Bool := strLeChars p.toList q.toList

/-- Insert a path into a sorted list. -/
def insertSorted (p : ModulePath) : List ModulePath → List ModulePath
  | [] => [p]
  | q :: rest => if strLe p q then p :: q :: rest else q :: insertSorted p rest

/-- `modules.sort()`: JS default sort, lexicographic string order (an
insertion sort; JS guarantees only the sorted result, which is determined up
to the order of duplicates). -/
def sortPaths (l : List ModulePath) : List ModulePath := l.foldr insertSorted []

/-- The sortedness `modules.sort()` establishes. -/
def PathsSorted (l : List ModulePath) : Prop := l.Pairwise (fun p q => strLe p q = true)

/-- The sequence of statements of `_copyDepGraph(modules)` (src/index.js
lines 144-157), in source order, as state transformers:
1. `this._depGraph = modules.sort()`;
2. `this._nonDepGraph = filterDirectory(inputPath, '', m => modules.indexOf(m) === -1).sort()`
   (`sort()` mutates `modules` in place first, which leaves `indexOf`
   membership unchanged);
3. `rimraf.sync(this.outputPath)`;
4. `this._copy(this.include ? this._depGraph : this._nonDepGraph)`;
5. `this._depGraphTree = this._getFSTree(this._depGraph)`;
6. `this._nonDepGraphTree = this._getFSTree(this._nonDepGraph)`. -/
def copyDepGraphSteps (f : BroccoliDependencyFunnel) (fs : FS) (modules : List ModulePath) :
    List (FunnelState → FunnelState) :=
  [ fun st => { st with depGraph := some (sortPaths modules) },
    fun st => { st with nonDepGraph := some (sortPaths (filterDirectory fs (fun m => !(memb m modules)))) },
    fun st => { st with output := [] },
    fun st => { st with output := copyList fs st.output (if f.include' then st.depGraph.getD [] else st.nonDepGraph.getD []) },
    fun st => { st with depGraphTree := some (getFSTree fs (st.depGraph.getD [])) },
    fun st => { st with nonDepGraphTree := some (getFSTree fs (st.nonDepGraph.getD [])) } ]

/-- `_copyDepGraph(modules)` run to completion. -/
def copyDepGraph (f : BroccoliDependencyFunnel) (fs : FS) (st : FunnelState)
    (modules : List ModulePath) : FunnelState :=
  (copyDepGraphSteps f fs modules).foldl (fun s g => g s) st

/-- The cache/output state left behind when only the first `k` statements of
`_copyDepGraph` have executed: a fatal I/O error (spec section 7: aborts the
build, no partial-state cleanup) thrown by statement `k+1` leaves exactly
this state behind. -/
def copyDepGraphUpTo (f : BroccoliDependencyFunnel) (fs : FS) (st : FunnelState)
    (modules : List ModulePath) (k : Nat) : FunnelState :=
  ((copyDepGraphSteps f fs modules).take k).foldl (fun s g => g s) st

/-- The resolution path of `build` when the entry exists (src/index.js lines
70-72): run rollup over the input, collecting `modules`, then `_copyDepGraph`. -/
def recomputeState (f : BroccoliDependencyFunnel) (fs : FS) (st : FunnelState) : FunnelState :=
  copyDepGraph f fs st (resolveGraph fs (f.external.getD []) f.entry)

/-- `_buildNonDepGraphChanges()` (src/index.js lines 99-112): diff the cached
complement snapshot against the current state of the complement paths; an
empty patch does nothing; a non-empty patch is applied to the output
directory only in exclude mode.  Neither cached snapshot is reassigned.
Returns none on the JS `TypeError` of a missing cached complement tree
(unreachable from consistent states). -/
def buildNonDepGraphChanges (f : BroccoliDependencyFunnel) (fs : FS) (st : FunnelState) :
    Option FunnelState :=
  match st.nonDepGraph, st.nonDepGraphTree with
  | some nonDepGraph, some nonDepGraphTree =>
    if (calculatePatch nonDepGraphTree (getFSTree fs nonDepGraph)).length != 0 then
      if f.include' then some st
      else some { st with output := applyPatch fs st.output (calculatePatch nonDepGraphTree (getFSTree fs nonDepGraph)) }
    else some st
  | _, _ => none

/-- The resolution path of `build` (src/index.js lines 60-72), reached on the
first build or when the dependency-graph diff was non-empty: if the entry
does not exist, exclude mode copies the top-level inodes of the root forward
and include mode returns with no effect — in both modes no cache field is
assigned; if the entry exists, rollup resolves the graph and `_copyDepGraph`
rebuilds everything. -/
def buildResolve (f : BroccoliDependencyFunnel) (fs : FS) (st : FunnelState) :
    Option FunnelState :=
  if existsSync fs f.entry = false then
    if f.include' = false then
      some { st with output := copyList fs st.output (readdirTop fs) }
    else some st
  else
    some (recomputeState f fs st)

/-- `build()` (src/index.js lines 46-73): when a cached dependency graph
exists, snapshot the current state of its paths and diff against the cached
snapshot; an empty diff takes the differential path
(`_buildNonDepGraphChanges`), a non-empty diff falls through to the
resolution path, as does the absence of any cached graph.  Returns none on
the JS `TypeError` of a defined `_depGraph` with an undefined
`_depGraphTree` (unreachable from consistent states). -/
def build (f : BroccoliDependencyFunnel) (fs : FS) (st : FunnelState) : Option FunnelState :=
  match st.depGraph with
  | some depGraph =>
    match st.depGraphTree with
    | none => none
    | some depGraphTree =>
      if (calculatePatch depGraphTree (getFSTree fs depGraph)).length != 0 then
        buildResolve f fs st
      else buildNonDepGraphChanges f fs st
  | none => buildResolve f fs st

/-- Cache atomicity: the four cache fields are all defined or all undefined. -/
def cacheAtomic (st : FunnelState) : Prop :=
  (st.depGraph.isSome = true ∧ st.depGraphTree.isSome = true ∧
   st.nonDepGraph.isSome = true ∧ st.nonDepGraphTree.isSome = true) ∨
  (st.depGraph = none ∧ st.depGraphTree = none ∧
   st.nonDepGraph = none ∧ st.nonDepGraphTree = none)

instance (st : FunnelState) : Decidable (cacheAtomic st) := by
  unfold cacheAtomic; infer_instance

/- ---------------------------------------------------------------------- -/
/- Helper lemmas.                                                          -/
/- ---------------------------------------------------------------------- -/

theorem memb_eq_true_iff (p : ModulePath) : ∀ l, memb p l = true ↔ p ∈ l
  | [] => by simp [memb]
  | q :: rest => by
    simp only [memb, List.mem_cons]
    by_cases h : q = p
    · simp [h]
    · rw [if_neg h, memb_eq_true_iff p rest]
      constructor
      · exact Or.inr
      · rintro (h' | h')
        · exact absurd h'.symm h
        · exact h'

theorem existsSync_eq_true_iff (p : ModulePath) : ∀ fs : FS, existsSync fs p = true ↔ p ∈ fsPaths fs
  | [] => by simp [existsSync, fsLookup, fsPaths]
  | e :: rest => by
    simp only [existsSync, fsLookup, fsPaths, List.map_cons, List.mem_cons]
    by_cases h : e.1 = p
    · simp [h]
    · rw [if_neg h,
        show (fsLookup rest p).isSome = existsSync rest p from rfl,
        existsSync_eq_true_iff p rest]
      simp only [fsPaths]
      constructor
      · exact Or.inr
      · rintro (h' | h')
        · exact absurd h'.symm h
        · exact h'

theorem filePaths_subset {fs : FS} {p : ModulePath} (h : p ∈ filePaths fs) : p ∈ fsPaths fs := by
  simp only [filePaths, List.mem_map, List.mem_filter] at h
  obtain ⟨e, ⟨he, _⟩, hp⟩ := h
  exact List.mem_map.2 ⟨e, he, hp⟩

theorem strLeChars_total : ∀ as bs, strLeChars as bs = true ∨ strLeChars bs as = true
  | [], bs => Or.inl rfl
  | a :: as, [] => Or.inr rfl
  | a :: as, b :: bs => by
    rcases Nat.lt_trichotomy a.toNat b.toNat with h | h | h
    · left; simp [strLeChars, h]
    · rcases strLeChars_total as bs with ih | ih
      · left; simp [strLeChars, h, ih]
      · right; simp [strLeChars, h.symm, ih]
    · right; simp [strLeChars, h]

theorem strLe_total (p q : ModulePath) : strLe p q = true ∨ strLe q p = true :=
  strLeChars_total p.toList q.toList

theorem strLeChars_trans :
    ∀ as bs cs, strLeChars as bs = true → strLeChars bs cs = true → strLeChars as cs = true
  | [], _, _ => fun _ _ => rfl
  | a :: as, [], cs => fun h _ => by simp [strLeChars] at h
  | a :: as, b :: bs, [] => fun _ h => by simp [strLeChars] at h
  | a :: as, b :: bs, c :: cs => fun h1 h2 => by
    simp only [strLeChars] at h1 h2 ⊢
    by_cases hab : a.toNat < b.toNat
    · by_cases hbc : b.toNat < c.toNat
      · rw [if_pos (by omega)]
      · rw [if_neg hbc] at h2
        by_cases hcb : c.toNat < b.toNat
        · simp [hcb] at h2
        · rw [if_pos (by omega)]
    · rw [if_neg hab] at h1
      by_cases hba : b.toNat < a.toNat
      · simp [hba] at h1
      · rw [if_neg hba] at h1
        by_cases hbc : b.toNat < c.toNat
        · rw [if_pos (by omega)]
        · rw [if_neg hbc] at h2
          by_cases hcb : c.toNat < b.toNat
          · simp [hcb] at h2
          · rw [if_neg hcb] at h2
            rw [if_neg (by omega : ¬ a.toNat < c.toNat), if_neg (by omega : ¬ c.toNat < a.toNat)]
            exact strLeChars_trans as bs cs h1 h2

theorem strLe_trans {p q r : ModulePath} (h1 : strLe p q = true) (h2 : strLe q r = true) :
    strLe p r = true :=
  strLeChars_trans p.toList q.toList r.toList h1 h2

theorem mem_insertSorted (a p : ModulePath) :
    ∀ l, a ∈ insertSorted p l ↔ a = p ∨ a ∈ l
  | [] => by simp [insertSorted]
  | q :: rest => by
    rw [insertSorted]
    by_cases h : strLe p q = true
    · rw [if_pos h]; simp
    · rw [if_neg h]
      simp only [List.mem_cons, mem_insertSorted a p rest]
      constructor
      · rintro (rfl | h' | h')
        · exact Or.inr (Or.inl rfl)
        · exact Or.inl h'
        · exact Or.inr (Or.inr h')
      · rintro (rfl | rfl | h')
        · exact Or.inr (Or.inl rfl)
        · exact Or.inl rfl
        · exact Or.inr (Or.inr h')

theorem mem_sortPaths (a : ModulePath) : ∀ l, a ∈ sortPaths l ↔ a ∈ l
  | [] => by simp [sortPaths]
  | p :: rest => by
    rw [show sortPaths (p :: rest) = insertSorted p (sortPaths rest) from rfl,
      mem_insertSorted, mem_sortPaths a rest]
    simp

theorem pairwise_insertSorted (p : ModulePath) :
    ∀ l, PathsSorted l → PathsSorted (insertSorted p l)
  | [], _ => by simp [insertSorted, PathsSorted]
  | q :: rest, h => by
    rcases List.pairwise_cons.1 h with ⟨hq, hrest⟩
    rw [insertSorted]
    by_cases hpq : strLe p q = true
    · rw [if_pos hpq]
      refine List.pairwise_cons.2 ⟨?_, h⟩
      intro r hr
      rcases List.mem_cons.1 hr with rfl | hr
      · exact hpq
      · exact strLe_trans hpq (hq r hr)
    · rw [if_neg hpq]
      refine List.pairwise_cons.2 ⟨?_, pairwise_insertSorted p rest hrest⟩
      intro r hr
      rcases (mem_insertSorted r p rest).1 hr with hrp | hr
      · subst hrp
        rcases strLe_total r q with h' | h'
        · exact absurd h' hpq
        · exact h'
      · exact hq r hr

theorem sortPaths_sorted : ∀ l, PathsSorted (sortPaths l)
  | [] => by simp [sortPaths, PathsSorted]
  | p :: rest =>
    pairwise_insertSorted p (sortPaths rest) (sortPaths_sorted rest)

theorem resolveImport_exists {fs : FS} {ext : List String} {s imp q : ModulePath}
    (h : resolveImport fs ext s imp = some q) : existsSync fs q = true := by
  unfold resolveImport at h
  split at h
  · exact absurd h (by simp)
  · split at h
    · next hex => exact Option.some_inj.1 h ▸ hex
    · exact absurd h (by simp)

theorem walkStep_acc_exists (fs : FS) (ext : List String) :
    ∀ fuel visited acc stack,
      (∀ m ∈ acc, existsSync fs m = true) →
      ∀ m ∈ (walkStep fs ext fuel visited acc stack).2, existsSync fs m = true := by
  intro fuel
  induction fuel with
  | zero => intro visited acc stack h; simpa [walkStep] using h
  | succ fuel ih =>
    intro visited acc stack h
    match stack with
    | [] => simpa [walkStep] using h
    | (imp, []) :: rest => simpa [walkStep] using ih visited acc rest h
    | (imp, s :: ss) :: rest =>
      rw [walkStep]
      cases hres : resolveImport fs ext s imp with
      | none => exact ih visited acc ((imp, ss) :: rest) h
      | some q =>
        have hq : existsSync fs q = true := resolveImport_exists hres
        have h' : ∀ m ∈ acc ++ [q], existsSync fs m = true := by
          intro m hm
          rcases List.mem_append.1 hm with hm | hm
          · exact h m hm
          · rw [List.mem_singleton.1 hm]; exact hq
        by_cases hv : memb q visited
        · simpa [hv] using ih visited (acc ++ [q]) ((imp, ss) :: rest) h'
        · simpa [hv] using
            ih (q :: visited) (acc ++ [q]) ((q, moduleImports fs q) :: (imp, ss) :: rest) h'

theorem resolveGraph_exists {fs : FS} {ext : List String} {entry : ModulePath}
    (hentry : existsSync fs entry = true) :
    ∀ m ∈ resolveGraph fs ext entry, existsSync fs m = true := by
  apply walkStep_acc_exists
  intro m hm
  rw [List.mem_singleton.1 hm]
  exact hentry

theorem copyDepGraph_eq (f : BroccoliDependencyFunnel) (fs : FS) (st : FunnelState)
    (modules : List ModulePath) :
    copyDepGraph f fs st modules =
      { depGraph := some (sortPaths modules),
        depGraphTree := some (getFSTree fs (sortPaths modules)),
        nonDepGraph := some (sortPaths (filterDirectory fs (fun m => !(memb m modules)))),
        nonDepGraphTree := some (getFSTree fs (sortPaths (filterDirectory fs (fun m => !(memb m modules))))),
        output := copyList fs []
          (if f.include' then sortPaths modules
           else sortPaths (filterDirectory fs (fun m => !(memb m modules)))) } := rfl

theorem buildResolve_cases (f : BroccoliDependencyFunnel) (fs : FS) (st st' : FunnelState)
    (hb : buildResolve f fs st = some st') :
    st' = recomputeState f fs st ∨ st' = st ∨
    st' = { st with output := copyList fs st.output (readdirTop fs) } := by
  unfold buildResolve at hb
  split at hb
  · split at hb
    · right; right; exact (Option.some_inj.1 hb).symm
    · right; left; exact (Option.some_inj.1 hb).symm
  · left; exact (Option.some_inj.1 hb).symm

theorem buildNonDepGraphChanges_cache_frame (f : BroccoliDependencyFunnel) (fs : FS)
    (st st' : FunnelState) (hb : buildNonDepGraphChanges f fs st = some st') :
    st'.depGraph = st.depGraph ∧ st'.depGraphTree = st.depGraphTree ∧
    st'.nonDepGraph = st.nonDepGraph ∧ st'.nonDepGraphTree = st.nonDepGraphTree := by
  unfold buildNonDepGraphChanges at hb
  split at hb
  · split at hb
    · split at hb
      · cases hb; exact ⟨rfl, rfl, rfl, rfl⟩
      · cases hb; exact ⟨rfl, rfl, rfl, rfl⟩
    · cases hb; exact ⟨rfl, rfl, rfl, rfl⟩
  · exact absurd hb (by simp)

theorem recomputeState_cache_defined (f : BroccoliDependencyFunnel) (fs : FS)
    (st : FunnelState) :
    (recomputeState f fs st).depGraph.isSome = true ∧
    (recomputeState f fs st).depGraphTree.isSome = true ∧
    (recomputeState f fs st).nonDepGraph.isSome = true ∧
    (recomputeState f fs st).nonDepGraphTree.isSome = true := by
  rw [recomputeState, copyDepGraph_eq]
  exact ⟨rfl, rfl, rfl, rfl⟩

/- ---------------------------------------------------------------------- -/
/- Concrete fixtures (the repository's own test fixture and variants).     -/
/- ---------------------------------------------------------------------- -/

/-- A file fixture with the given mtime and import specifiers. -/
def fnode (mt : Nat) (imps : List String) : FileNode :=
  { stat := { isDirectory := false, mtime := mt, size := 10, mode := 420 }, imports := imps }

/-- A directory fixture with the given mtime. -/
def dnode (mt : Nat) : FileNode :=
  { stat := { isDirectory := true, mtime := mt, size := 0, mode := 493 }, imports := [] }

/-- The repository's own test fixture (test beforeEach block). -/
def fixFS : FS :=
  [ ("routes.js", fnode 1 ["ember-engines/routes", "utils/foo"]),
    ("utils", dnode 1),
    ("utils/foo.js", fnode 1 ["./derp"]),
    ("utils/derp.js", fnode 1 []),
    ("utils/herp.js", fnode 1 []),
    ("engine.js", fnode 1 ["./utils/herp"]) ]

/-- The fixture after touching `routes.js` (a change inside the graph). -/
def fixFSU : FS :=
  [ ("routes.js", fnode 2 ["ember-engines/routes", "utils/foo"]),
    ("utils", dnode 1),
    ("utils/foo.js", fnode 1 ["./derp"]),
    ("utils/derp.js", fnode 1 []),
    ("utils/herp.js", fnode 1 []),
    ("engine.js", fnode 1 ["./utils/herp"]) ]

/-- The fixture after touching `engine.js` (a change outside the graph). -/
def fixFSOut : FS :=
  [ ("routes.js", fnode 1 ["ember-engines/routes", "utils/foo"]),
    ("utils", dnode 1),
    ("utils/foo.js", fnode 1 ["./derp"]),
    ("utils/derp.js", fnode 1 []),
    ("utils/herp.js", fnode 1 []),
    ("engine.js", fnode 2 ["./utils/herp"]) ]

/-- The plugin of the include-mode tests. -/
def fixInclude : BroccoliDependencyFunnel :=
  { include' := true, entry := "routes.js", external := some ["ember-engines/routes"] }

/-- The plugin of the exclude-mode tests. -/
def fixExclude : BroccoliDependencyFunnel :=
  { include' := false, entry := "routes.js", external := some ["ember-engines/routes"] }

/-- The dependency graph the fixture resolves to, sorted. -/
def fixDepGraph : List ModulePath := ["routes.js", "utils/derp.js", "utils/foo.js"]

/-- The fixture's complement, sorted. -/
def fixNonDepGraph : List ModulePath := ["engine.js", "utils", "utils/herp.js"]

/-- State after the first include-mode build on the fixture. -/
def fixState1 : FunnelState := (build fixInclude fixFS initialState).getD initialState

/-- State after the first exclude-mode build on the fixture. -/
def fixStateExc1 : FunnelState := (build fixExclude fixFS initialState).getD initialState

/-- State after the exclude-mode differential build on the touched fixture. -/
def fixStateExc2 : FunnelState := (build fixExclude fixFSOut fixStateExc1).getD initialState

/-- A one-file root whose only file is the entry. -/
def oneFS : FS := [("routes.js", fnode 1 [])]

/-- The empty root (everything deleted). -/
def emptyFS : FS := []

/-- Include-mode plugin with entry `routes.js` and no externals. -/
def cexIncFunnel : BroccoliDependencyFunnel :=
  { include' := true, entry := "routes.js", external := none }

/-- Exclude-mode plugin with entry `routes.js` and no externals. -/
def cexExcFunnel : BroccoliDependencyFunnel :=
  { include' := false, entry := "routes.js", external := none }

/-- State after an include-mode build on the one-file root. -/
def cexIncState : FunnelState := (build cexIncFunnel oneFS initialState).getD initialState

/-- State after an exclude-mode build on the one-file root. -/
def cexExcState : FunnelState := (build cexExcFunnel oneFS initialState).getD initialState

/-- A root without the entry, holding a directory with one nested file. -/
def nestedFS : FS := [("d", dnode 1), ("d/nested.js", fnode 1 [])]

/-- State after the exclude-mode build on `nestedFS` from `cexExcState`. -/
def cexExcState2 : FunnelState := (build cexExcFunnel nestedFS cexExcState).getD initialState

/-- A root where `a.js` exists alone (for the unrelated-addition scenario). -/
def aFS : FS := [("a.js", fnode 1 [])]

/-- The same root after adding an unrelated file `b.js`. -/
def abFS : FS := [("a.js", fnode 1 []), ("b.js", fnode 1 [])]

/-- Include-mode plugin with entry `a.js`. -/
def aFunnel : BroccoliDependencyFunnel :=
  { include' := true, entry := "a.js", external := none }

/-- State after the include-mode build on `aFS`. -/
def aState : FunnelState := (build aFunnel aFS initialState).getD initialState

/-- A root where both `a.js` and `b.js` import `c`. -/
def dupFS : FS :=
  [ ("a.js", fnode 1 ["b", "c"]),
    ("b.js", fnode 1 ["c"]),
    ("c.js", fnode 1 []) ]

/-- Include-mode plugin with entry `a.js` for the duplicate-import scenario. -/
def dupFunnel : BroccoliDependencyFunnel :=
  { include' := true, entry := "a.js", external := none }

/-- A root holding the file `b.js` (same-named as an external specifier). -/
def extFS : FS := [("b.js", fnode 1 [])]

/- ---------------------------------------------------------------------- -/
/- Claim theorems.                                                         -/
/- ---------------------------------------------------------------------- -/

/-- C10: construction succeeds exactly when exactly one of the boolean-ish
`include` / `exclude` options is specified (truthily); with neither or both
of them the constructor throws its configuration error synchronously, before
any build can run. -/
theorem construct_requires_exactly_one (o : Options) :
    ((∃ f, construct o = Except.ok f) ↔
      (jsTruthy o.include').xor (jsTruthy o.exclude') = true) ∧
    (construct o = Except.error ("Must specify exactly one of `include` or `exclude`.") ↔
      (jsTruthy o.include').xor (jsTruthy o.exclude') = false) := by
  unfold construct
  cases h : (jsTruthy o.include').xor (jsTruthy o.exclude') <;> simp

/-- C6: an import specifier listed in the configured `external` sequence is
never resolved to a filesystem path and never recorded in the dependency
graph, even when the same-named file exists under the input root: the edge
resolution short-circuits to external (`none`), and a walk step facing such a
specifier just discards it, recording nothing and walking nowhere. -/
theorem external_specifier_never_resolved (fs : FS) (ext : List String)
    (s imp : ModulePath) (hs : memb s ext = true)
    (hfile : existsSync fs (stripLeadingSlash (moduleResolve s imp) ++ (".js")) = true) :
    resolveImport fs ext s imp = none ∧
    ∀ fuel visited acc ss rest,
      walkStep fs ext (fuel + 1) visited acc ((imp, s :: ss) :: rest) =
      walkStep fs ext fuel visited acc ((imp, ss) :: rest) := by
  constructor
  · simp [resolveImport, hs]
  · intro fuel visited acc ss rest
    simp [walkStep, resolveImport, hs]

/-- C6 witness: the external specifier `b` is not resolved even though the
file `b.js` exists under the root. -/
theorem external_specifier_never_resolved_witness :
    memb ("b") [("b" : String)] = true ∧
    existsSync extFS (stripLeadingSlash (moduleResolve ("b") ("a.js")) ++ (".js")) = true ∧
    resolveImport extFS [("b")] ("b") ("a.js") = none :=
  ⟨by decide, by decide,
    (external_specifier_never_resolved extFS [("b")] ("b") ("a.js") (by decide) (by decide)).1⟩

/-- C2: when a cached dependency graph exists and the input is unchanged
since that cache was computed (the dependency-graph diff and the complement
diff are both empty), the build performs no filesystem mutation at all: the
whole state, and in particular the output directory with all its entry
metadata (mtimes included), is returned unchanged. -/
theorem stable_rebuild_is_noop (f : BroccoliDependencyFunnel) (fs : FS)
    (st : FunnelState) (g : List ModulePath) (t : FSTree)
    (c : List ModulePath) (ct : FSTree)
    (hg : st.depGraph = some g) (ht : st.depGraphTree = some t)
    (hc : st.nonDepGraph = some c) (hct : st.nonDepGraphTree = some ct)
    (hdep : calculatePatch t (getFSTree fs g) = [])
    (hnon : calculatePatch ct (getFSTree fs c) = []) :
    build f fs st = some st := by
  simp [build, hg, ht, hdep, buildNonDepGraphChanges, hc, hct, hnon]

/-- C2 witness: rebuilding the unchanged fixture from the cached state is the
identity. -/
theorem stable_rebuild_is_noop_witness : build fixInclude fixFS fixState1 = some fixState1 :=
  stable_rebuild_is_noop fixInclude fixFS fixState1
    fixDepGraph (getFSTree fixFS fixDepGraph)
    fixNonDepGraph (getFSTree fixFS fixNonDepGraph)
    (by decide) (by decide) (by decide) (by decide) (by decide) (by decide)

/-- C4: in include mode, whenever the dependency-graph diff is empty, the
build changes nothing — no write, removal or wipe touches the output
directory, even when files outside the dependency graph were modified (the
complement diff may be arbitrary). -/
theorem include_mode_ignores_complement_changes (f : BroccoliDependencyFunnel)
    (fs : FS) (st : FunnelState) (g : List ModulePath) (t : FSTree)
    (c : List ModulePath) (ct : FSTree)
    (hinc : f.include' = true)
    (hg : st.depGraph = some g) (ht : st.depGraphTree = some t)
    (hc : st.nonDepGraph = some c) (hct : st.nonDepGraphTree = some ct)
    (hdep : calculatePatch t (getFSTree fs g) = []) :
    build f fs st = some st := by
  simp [build, hg, ht, hdep, buildNonDepGraphChanges, hc, hct, hinc]

/-- C4 witness: after touching `engine.js` (outside the graph; the complement
diff is non-empty), the include-mode rebuild still changes nothing. -/
theorem include_mode_ignores_complement_changes_witness :
    build fixInclude fixFSOut fixState1 = some fixState1 ∧
    (calculatePatch (getFSTree fixFS fixNonDepGraph) (getFSTree fixFSOut fixNonDepGraph)).length ≠ 0 :=
  ⟨include_mode_ignores_complement_changes fixInclude fixFSOut fixState1
      fixDepGraph (getFSTree fixFS fixDepGraph)
      fixNonDepGraph (getFSTree fixFS fixNonDepGraph)
      (by decide) (by decide) (by decide) (by decide) (by decide) (by decide),
    by decide⟩

/-- C3 counterexample: a cached dependency graph exists and its diff against
the current root is non-empty (the entry was deleted), yet the build performs
no recomputation at all: the state comes back unchanged — the caches are not
replaced, the graph is not re-resolved, the non-empty output is not wiped. -/
theorem depgraph_change_without_entry_no_recompute :
    cexIncState.depGraph = some [("routes.js")] ∧
    (calculatePatch (cexIncState.depGraphTree.getD [])
      (getFSTree emptyFS (cexIncState.depGraph.getD []))).length ≠ 0 ∧
    build cexIncFunnel emptyFS cexIncState = some cexIncState ∧
    cexIncState.output ≠ [] := by decide

/-- C3 (amended): when a cached dependency graph exists, its diff against the
current root is non-empty, and additionally the entry exists under the input
root, the build performs a full recomputation: it re-resolves the graph from
the entry, replaces all four cache fields wholesale with values computed only
from the current input, wipes the output directory and copies the
mode-selected set forward.  (When the entry does not exist the build instead
takes the entry-absent path and leaves the caches untouched.) -/
theorem depgraph_change_triggers_full_recompute (f : BroccoliDependencyFunnel)
    (fs : FS) (st : FunnelState) (g : List ModulePath) (t : FSTree)
    (hg : st.depGraph = some g) (ht : st.depGraphTree = some t)
    (hpatch : (calculatePatch t (getFSTree fs g)).length ≠ 0)
    (hentry : existsSync fs f.entry = true) :
    build f fs st = some (recomputeState f fs st) ∧
    (recomputeState f fs st).depGraph =
      some (sortPaths (resolveGraph fs (f.external.getD []) f.entry)) ∧
    (recomputeState f fs st).depGraphTree =
      some (getFSTree fs (sortPaths (resolveGraph fs (f.external.getD []) f.entry))) ∧
    (recomputeState f fs st).nonDepGraph =
      some (sortPaths (filterDirectory fs (fun m => !(memb m (resolveGraph fs (f.external.getD []) f.entry))))) ∧
    (recomputeState f fs st).nonDepGraphTree =
      some (getFSTree fs (sortPaths (filterDirectory fs (fun m => !(memb m (resolveGraph fs (f.external.getD []) f.entry)))))) ∧
    (recomputeState f fs st).output =
      copyList fs []
        (if f.include' then sortPaths (resolveGraph fs (f.external.getD []) f.entry)
         else sortPaths (filterDirectory fs (fun m => !(memb m (resolveGraph fs (f.external.getD []) f.entry))))) := by
  refine ⟨?_, rfl, rfl, rfl, rfl, rfl⟩
  have hb : ((calculatePatch t (getFSTree fs g)).length != 0) = true := by
    simpa using hpatch
  simp [build, hg, ht, hb, buildResolve, hentry]

/-- C3 witness: touching `routes.js` (inside the graph, entry present) makes
the rebuild recompute everything. -/
theorem depgraph_change_triggers_full_recompute_witness :
    build fixInclude fixFSU fixState1 = some (recomputeState fixInclude fixFSU fixState1) :=
  (depgraph_change_triggers_full_recompute fixInclude fixFSU fixState1
    fixDepGraph (getFSTree fixFS fixDepGraph)
    (by decide) (by decide) (by decide) (by decide)).1

/-- C5 counterexample: a build that reaches the resolution path in exclude
mode with the entry absent, after an earlier successful build: the previously
populated caches remain populated (not left unpopulated), and the output is
not the entire current root copied verbatim — the nested file `d/nested.js`
exists under the root but is missing from the output (the copy utility does
not recurse into the top-level directory `d`). -/
theorem entry_absent_claim_fails :
    existsSync nestedFS ("routes.js") = false ∧
    cexExcState2.depGraph ≠ none ∧ cexExcState2.depGraphTree ≠ none ∧
    ("d/nested.js") ∈ filePaths nestedFS ∧
    ("d/nested.js") ∉ fsPaths cexExcState2.output := by decide

/-- C5 (amended): a build that reaches the resolution path (no cached graph,
or a non-empty dependency-graph diff) and finds the entry absent leaves every
cache field exactly unchanged — hence still unpopulated on a first build, so
the next build retries resolution from scratch — and touches the output as
follows: in exclude mode the top-level inodes of the current root are copied
forward onto the existing output (files with their metadata, directories
created without recursing); in include mode nothing is written at all, so a
first build produces an empty output. -/
theorem entry_absent_leaves_state (f : BroccoliDependencyFunnel) (fs : FS)
    (st : FunnelState)
    (hentry : existsSync fs f.entry = false)
    (hbranch : st.depGraph = none ∨
      ∃ g t, st.depGraph = some g ∧ st.depGraphTree = some t ∧
        (calculatePatch t (getFSTree fs g)).length ≠ 0) :
    build f fs st =
      some { st with output :=
        if f.include' = false then copyList fs st.output (readdirTop fs) else st.output } := by
  have hres : buildResolve f fs st =
      some { st with output :=
        if f.include' = false then copyList fs st.output (readdirTop fs) else st.output } := by
    unfold buildResolve
    rw [if_pos hentry]
    by_cases hi : f.include' = false
    · rw [if_pos hi, if_pos hi]
    · rw [if_neg hi, if_neg hi]
  rcases hbranch with hg | ⟨g, t, hg, ht, hp⟩
  · have hstep : build f fs st = buildResolve f fs st := by
      simp only [build, hg]
    rw [hstep]
    exact hres
  · have hb : ((calculatePatch t (getFSTree fs g)).length != 0) = true := by
      simpa using hp
    have hstep : build f fs st = buildResolve f fs st := by
      simp [build, hg, ht, hb]
    rw [hstep]
    exact hres

/-- C5 witness: an exclude-mode first build with the entry absent copies the
top-level inodes forward and leaves all caches unpopulated. -/
theorem entry_absent_leaves_state_witness :
    build cexExcFunnel nestedFS initialState =
      some { initialState with output := if cexExcFunnel.include' = false then copyList nestedFS initialState.output (readdirTop nestedFS) else initialState.output } :=
  entry_absent_leaves_state cexExcFunnel nestedFS initialState (by decide) (Or.inl (by decide))

/-- C1 counterexample: after adding the unrelated file `b.js` and rebuilding
(the diff over the cached dependency-graph paths and the cached complement
paths is empty, so no recomputation occurs), both cached sets are defined but
the new file is in neither: their union no longer covers the current root's
file listing. -/
theorem partition_fails_after_unrelated_addition :
    build aFunnel abFS aState = some aState ∧
    aState.depGraph.isSome = true ∧ aState.nonDepGraph.isSome = true ∧
    ("b.js") ∈ filePaths abFS ∧
    ("b.js") ∉ aState.depGraph.getD [] ∧
    ("b.js") ∉ aState.nonDepGraph.getD [] := by decide

/-- C1 (amended): the two cached sets are only ever (re)defined together, by
`_copyDepGraph`; at that point, with respect to the filesystem then current,
they are disjoint and every file path under the root is in exactly one of
them.  (Files added or removed after that point, without a recomputation
being triggered, can be in neither set.) -/
theorem partition_at_recompute (f : BroccoliDependencyFunnel) (fs : FS)
    (st : FunnelState) (modules : List ModulePath) :
    (∀ p, ¬ (p ∈ (copyDepGraph f fs st modules).depGraph.getD [] ∧
             p ∈ (copyDepGraph f fs st modules).nonDepGraph.getD [])) ∧
    (∀ p ∈ filePaths fs,
       (p ∈ (copyDepGraph f fs st modules).depGraph.getD [] ↔
        p ∉ (copyDepGraph f fs st modules).nonDepGraph.getD [])) := by
  rw [copyDepGraph_eq]
  simp only [Option.getD_some]
  constructor
  · rintro p ⟨hd, hn⟩
    have hd' : p ∈ modules := (mem_sortPaths p modules).1 hd
    have hn' := (mem_sortPaths p _).1 hn
    rcases List.mem_filter.1 hn' with ⟨-, hpred⟩
    rw [Bool.not_eq_true'] at hpred
    rw [← memb_eq_true_iff p modules] at hd'
    rw [hd'] at hpred
    cases hpred
  · intro p hp
    constructor
    · rintro hd hn
      have hd' : p ∈ modules := (mem_sortPaths p modules).1 hd
      have hn' := (mem_sortPaths p _).1 hn
      rcases List.mem_filter.1 hn' with ⟨-, hpred⟩
      rw [Bool.not_eq_true'] at hpred
      rw [← memb_eq_true_iff p modules] at hd'
      rw [hd'] at hpred
      cases hpred
    · intro hn
      by_cases hm : memb p modules = true
      · exact (mem_sortPaths p modules).2 (memb_eq_true_iff p modules |>.1 hm)
      · exfalso
        apply hn
        apply (mem_sortPaths p _).2
        apply List.mem_filter.2
        refine ⟨filePaths_subset hp, ?_⟩
        rw [Bool.not_eq_true']
        simpa using hm

/-- C7 counterexample: with `a.js` importing `b` and `c` and `b.js` importing
`c`, the cached dependency graph after a successful build contains `c.js`
twice — one entry per importing edge — so it is not deduplicated. -/
theorem depgraph_not_deduplicated :
    (build dupFunnel dupFS initialState).map FunnelState.depGraph =
      some (some [("a.js"), ("b.js"), ("c.js"), ("c.js")]) ∧
    ¬ (["a.js", "b.js", "c.js", "c.js"] : List ModulePath).Nodup := by decide

/-- C7 (amended): after every recomputation the cached dependency-graph list
(and the cached complement list) is sorted lexicographically by path, so the
graph-walk discovery order is not observable downstream; the list is not
deduplicated — the walk records one entry per import edge that resolves, so a
module imported by several modules appears once per importing edge (each
module is still walked at most once). -/
theorem depgraph_sorted_after_recompute (f : BroccoliDependencyFunnel) (fs : FS)
    (st : FunnelState) (modules : List ModulePath) :
    PathsSorted ((copyDepGraph f fs st modules).depGraph.getD []) ∧
    PathsSorted ((copyDepGraph f fs st modules).nonDepGraph.getD []) := by
  rw [copyDepGraph_eq]
  exact ⟨sortPaths_sorted modules, sortPaths_sorted _⟩

/-- C8 counterexample: an exclude-mode differential update (dependency-graph
diff empty, complement diff non-empty after touching `engine.js`): the cached
complement snapshot is not refreshed — after the build it still differs from
the snapshot of the current complement state, so the next build's diff is
computed against the stale recompute-time snapshot, not the post-update
state. -/
theorem complement_snapshot_not_refreshed :
    (calculatePatch (fixStateExc1.nonDepGraphTree.getD [])
      (getFSTree fixFSOut (fixStateExc1.nonDepGraph.getD []))).length ≠ 0 ∧
    (build fixExclude fixFSOut fixStateExc1).map FunnelState.nonDepGraphTree =
      some fixStateExc1.nonDepGraphTree ∧
    fixStateExc1.nonDepGraphTree ≠
      some (getFSTree fixFSOut (fixStateExc1.nonDepGraph.getD [])) := by decide

/-- C8 (amended): on every differential update (cached graph present, its
diff empty), in both modes, all four cache fields — the two sets and both
snapshots — are left exactly as they were: in particular the cached
complement snapshot is NOT refreshed, and the next build's complement diff is
computed against the snapshot taken at the last full recomputation. -/
theorem differential_update_cache_unchanged (f : BroccoliDependencyFunnel)
    (fs : FS) (st : FunnelState) (g : List ModulePath) (t : FSTree)
    (hg : st.depGraph = some g) (ht : st.depGraphTree = some t)
    (hdep : calculatePatch t (getFSTree fs g) = []) (st' : FunnelState)
    (hb : build f fs st = some st') :
    st'.depGraph = st.depGraph ∧ st'.depGraphTree = st.depGraphTree ∧
    st'.nonDepGraph = st.nonDepGraph ∧ st'.nonDepGraphTree = st.nonDepGraphTree := by
  have hnd : buildNonDepGraphChanges f fs st = some st' := by
    simpa [build, hg, ht, hdep] using hb
  exact buildNonDepGraphChanges_cache_frame f fs st st' hnd

/-- C8 witness: the exclude-mode differential update on the touched fixture
leaves all four cache fields unchanged. -/
theorem differential_update_cache_unchanged_witness :
    fixStateExc2.depGraph = fixStateExc1.depGraph ∧
    fixStateExc2.depGraphTree = fixStateExc1.depGraphTree ∧
    fixStateExc2.nonDepGraph = fixStateExc1.nonDepGraph ∧
    fixStateExc2.nonDepGraphTree = fixStateExc1.nonDepGraphTree :=
  differential_update_cache_unchanged fixExclude fixFSOut fixStateExc1
    fixDepGraph (getFSTree fixFS fixDepGraph)
    (by decide) (by decide) (by decide) fixStateExc2 (by decide)

/-- C9 counterexample: a build failing between the first and second statement
of `_copyDepGraph` (e.g. an I/O error while enumerating the complement, with
no cleanup attempted) leaves `_depGraph` assigned but all other cache fields
undefined: a partially populated cache. -/
theorem midfailure_partial_cache :
    ¬ cacheAtomic (copyDepGraphUpTo fixInclude fixFS initialState
      (resolveGraph fixFS [("ember-engines/routes")] ("routes.js")) 1) := by decide

/-- C9 (amended): every build that runs to completion preserves cache
atomicity: starting from a state whose four cache fields are all defined or
all undefined (as after construction), the state after a successful build
again has all four defined (a completed recomputation sets them together) or
all four undefined; only a build aborted mid-recomputation can leave a
partially populated cache. -/
theorem successful_build_preserves_cache_atomicity (f : BroccoliDependencyFunnel)
    (fs : FS) (st st' : FunnelState)
    (h : cacheAtomic st) (hb : build f fs st = some st') : cacheAtomic st' := by
  have hresolve : ∀ s', buildResolve f fs st = some s' → cacheAtomic s' := by
    intro s' hr
    rcases buildResolve_cases f fs st s' hr with rfl | rfl | rfl
    · rcases recomputeState_cache_defined f fs st with ⟨h1, h2, h3, h4⟩
      exact Or.inl ⟨h1, h2, h3, h4⟩
    · exact h
    · exact h
  unfold build at hb
  split at hb
  · split at hb
    · exact absurd hb (by simp)
    · split at hb
      · exact hresolve st' hb
      · rcases buildNonDepGraphChanges_cache_frame f fs st st' hb with ⟨h1, h2, h3, h4⟩
        unfold cacheAtomic at h ⊢
        rw [h1, h2, h3, h4]
        exact h
  · exact hresolve st' hb

/-- C9 witness: the first fixture build is successful and takes the initial
(all-undefined) cache to an all-defined cache. -/
theorem successful_build_preserves_cache_atomicity_witness : cacheAtomic fixState1 :=
  successful_build_preserves_cache_atomicity fixInclude fixFS initialState fixState1
    (by decide) (by decide)
